import Mathlib

/-!
Shallow embedding of the `redis-utils` crate (src/lib.rs, src/converters.rs):
the `tx!` transaction retry macro and the JSON codec helpers
(`json_get`, `maybe_json_get`, `json_mget`, `Pipeline::json_set`).

Store and serde errors are opaque payloads threaded through the code, so they
are modelled as strings.  The redis-rs typed conversions that the source relies
on are embedded explicitly: converting a nil reply to `String` fails with a
type-error `RedisError` (this is why the crate has both `json_get` and
`maybe_json_get`), while converting nil to `Option<String>` yields `None`.
-/

namespace RedisUtils

/-- Opaque payload of a redis-rs RedisError. -/
abbrev RedisErr := String

/-- Opaque payload of a serde_json Error. -/
abbrev SerdeErr := String

/-- The redis-rs type error raised when a nil reply is converted to String
(absent key read through a non-optional target type). -/
def nilTypeErr : RedisErr := "response was nil: type incompatible"

/-- The server error for MGET invoked with zero keys. -/
def mgetArityErr : RedisErr := "wrong number of arguments for MGET"

/-- src/lib.rs: pub enum TxError<T> { Abort(T), Serialization(serde_json::Error),
DbError(redis::RedisError) }. -/
inductive TxError (α : Type) where
  | Abort : α → TxError α
  | Serialization : SerdeErr → TxError α
  | DbError : RedisErr → TxError α
deriving DecidableEq

/-- A write command recorded in a pipeline; the crate's helpers only append
SET commands (Pipeline::set). -/
inductive Cmd where
  | set : String → String → Cmd
deriving DecidableEq

/-- redis::Pipeline: an ordered command list plus the atomic (MULTI/EXEC) flag. -/
structure Pipeline where
  commands : List Cmd
  atomicFlag : Bool
deriving DecidableEq

/-- redis::pipe(): a fresh, empty, non-atomic pipeline. -/
def Pipeline.new : Pipeline := Pipeline.mk [] false

/-- Pipeline::atomic(): switch the pipeline into MULTI/EXEC mode. -/
def Pipeline.atomic (p : Pipeline) : Pipeline := Pipeline.mk p.commands true

/-- Pipeline::set(key, val): append one SET command. -/
def Pipeline.set (p : Pipeline) (k v : String) : Pipeline :=
  Pipeline.mk (p.commands ++ [Cmd.set k v]) p.atomicFlag

/-- The pipeline the tx! macro hands to the body on every attempt:
let mut pipe = pipe(); pipe.atomic(); (src/lib.rs lines 185-186). -/
def freshPipe : Pipeline := Pipeline.new.atomic

/-- The serde codec the helpers are generic over: Serialize / DeserializeOwned. -/
structure Codec (V : Type) where
  encode : V → Except SerdeErr String
  decode : String → Except SerdeErr V

/-- The key-value content of the store: association list, latest write first. -/
abbrev Store := List (String × String)

/-- Effect of one pipeline command on the store contents. -/
def applyCmd (st : Store) : Cmd → Store
  | Cmd.set k v => (k, v) :: st

/-- Committing a pipeline applies its commands in order. -/
def Pipeline.applyTo (p : Pipeline) (st : Store) : Store :=
  p.commands.foldl applyCmd st

/-- A connection for the read helpers: the store contents it sees, plus an
optional network failure that makes every round trip fail. -/
structure Conn where
  store : Store
  netFail : Option RedisErr

/-- Raw GET: the wire-level reply is nil (none) when the key is absent. -/
def Conn.rawGet (c : Conn) (k : String) : Except RedisErr (Option String) :=
  match c.netFail with
  | some e => Except.error e
  | none => Except.ok (List.lookup k c.store)

/-- Raw MGET: one nullable reply per key, positionally. -/
def Conn.rawMGet (c : Conn) (keys : List String) : Except RedisErr (List (Option String)) :=
  match c.netFail with
  | some e => Except.error e
  | none =>
    match keys with
    | [] => Except.error mgetArityErr
    | _ => Except.ok (keys.map fun k => List.lookup k c.store)

/-- redis-rs FromRedisValue for String: a nil reply fails with a type error. -/
def fromNilString : Option String → Except RedisErr String
  | none => Except.error nilTypeErr
  | some s => Except.ok s

/-- redis-rs FromRedisValue for Vec of String: each element converted; a nil
element fails the whole conversion with a type error. -/
def fromNilStringList : List (Option String) → Except RedisErr (List String)
  | [] => Except.ok []
  | none :: _ => Except.error nilTypeErr
  | some s :: rest => (fromNilStringList rest).map (s :: ·)

/-- src/converters.rs: pub enum JsonGetError { Serialization(serde_json::Error),
DbError(redis::RedisError) }.  Note: there is no NotFound variant. -/
inductive JsonGetError where
  | Serialization : SerdeErr → JsonGetError
  | DbError : RedisErr → JsonGetError
deriving DecidableEq

/-- True exactly on the DbError constructor, the classification of connection
failures. -/
def JsonGetError.isDbErr : JsonGetError → Bool
  | JsonGetError.DbError _ => true
  | JsonGetError.Serialization _ => false

/-- True exactly on the Serialization constructor, the classification of
decode failures. -/
def JsonGetError.isSerdeErr : JsonGetError → Bool
  | JsonGetError.Serialization _ => true
  | JsonGetError.DbError _ => false

/-- src/converters.rs json_get (lines 136-142):
let val: String = self.get(key).await?;  Ok(serde_json::from_str(&val)?). -/
def json_get {V : Type} (cd : Codec V) (c : Conn) (k : String) : Except JsonGetError V :=
  match c.rawGet k with
  | Except.error e => Except.error (JsonGetError.DbError e)
  | Except.ok raw =>
    match fromNilString raw with
    | Except.error e => Except.error (JsonGetError.DbError e)
    | Except.ok s =>
      match cd.decode s with
      | Except.error e => Except.error (JsonGetError.Serialization e)
      | Except.ok v => Except.ok v

/-- src/converters.rs maybe_json_get (lines 145-154):
let val: Option<String> = self.get(key).await?; decode when present. -/
def maybe_json_get {V : Type} (cd : Codec V) (c : Conn) (k : String) :
    Except JsonGetError (Option V) :=
  match c.rawGet k with
  | Except.error e => Except.error (JsonGetError.DbError e)
  | Except.ok none => Except.ok none
  | Except.ok (some s) =>
    match cd.decode s with
    | Except.error e => Except.error (JsonGetError.Serialization e)
    | Except.ok v => Except.ok (some v)

/-- redis-rs ToRedisArgs::is_single_arg for a key list: true exactly when it
holds a single key. -/
def isSingleArg (keys : List String) : Bool := keys.length == 1

/-- The decode loop of json_mget: for string in strings
{ values.push(serde_json::from_str(&string)?) }. -/
def decodeEach {V : Type} (cd : Codec V) : List String → Except JsonGetError (List V)
  | [] => Except.ok []
  | s :: rest =>
    match cd.decode s with
    | Except.error e => Except.error (JsonGetError.Serialization e)
    | Except.ok v => (decodeEach cd rest).map (v :: ·)

/-- src/converters.rs json_mget (lines 157-171): single-arg keys go through
maybe_json_get collected into a vector; otherwise MGET, convert every reply to
String (nil fails), then decode each. -/
def json_mget {V : Type} (cd : Codec V) (c : Conn) (keys : List String) :
    Except JsonGetError (List V) :=
  if isSingleArg keys then
    match maybe_json_get cd c (keys.headD "") with
    | Except.error e => Except.error e
    | Except.ok o => Except.ok o.toList
  else
    match c.rawMGet keys with
    | Except.error e => Except.error (JsonGetError.DbError e)
    | Except.ok raws =>
      match fromNilStringList raws with
      | Except.error e => Except.error (JsonGetError.DbError e)
      | Except.ok strings => decodeEach cd strings

/-- src/converters.rs PipelineJsonSet::json_set (lines 16-27):
Ok(self.set(key, serde_json::to_string(&val).map_err(TxError::Serialization)?)).
The &mut self receiver is modelled by returning the resulting pipeline state
next to the Result: on encode failure the pipeline is returned unchanged. -/
def Pipeline.json_set {α V : Type} (cd : Codec V) (p : Pipeline) (k : String) (v : V) :
    Except (TxError α) Unit × Pipeline :=
  match cd.encode v with
  | Except.error e => (Except.error (TxError.Serialization e), p)
  | Except.ok s => (Except.ok (), p.set k s)

/-- The per-attempt responses of the store, abstracting the concurrent
environment: the outcome of WATCH, of the atomic EXEC submission (ok none is
the optimistic-lock violation), and of UNWATCH, for one loop iteration. -/
structure AttemptEnv (ρ : Type) where
  watchRes : Except RedisErr Unit
  submitRes : Except RedisErr (Option ρ)
  unwatchRes : Except RedisErr Unit

/-- A store command issued by the engine, or an invocation of the body with
the pipeline it was handed; recorded in order. -/
inductive TxEvent where
  | watchCmd : TxEvent
  | unwatchCmd : TxEvent
  | bodyCall : Pipeline → TxEvent
  | submitCmd : Pipeline → TxEvent
deriving DecidableEq

/-- The tx! macro loop (src/lib.rs lines 182-209), fuel-indexed: none means
the loop is still running after that many iterations.  Per iteration i:
watch! (failure breaks with DbError); a fresh atomic pipeline is built and the
body invoked on it; Abort and Serialization unwatch! then break with that
error (a failing unwatch! breaks with its DbError instead); a body DbError
breaks directly; otherwise the pipeline is submitted — an error propagates out
through the question-mark operator (modelled as terminating with DbError),
Some response unwatches and breaks Ok, None re-enters the loop.  The second
component records every store command issued and every body invocation. -/
def runTx {α ρ : Type} (env : Nat → AttemptEnv ρ)
    (body : Nat → Pipeline → Except (TxError α) Pipeline) :
    Nat → Nat → Option (Except (TxError α) ρ) × List TxEvent
  | _, 0 => (none, [])
  | i, fuel + 1 =>
    match (env i).watchRes with
    | Except.error e => (some (Except.error (TxError.DbError e)), [TxEvent.watchCmd])
    | Except.ok _ =>
      match body i freshPipe with
      | Except.error (TxError.Abort v) =>
        match (env i).unwatchRes with
        | Except.error e =>
          (some (Except.error (TxError.DbError e)),
            [TxEvent.watchCmd, TxEvent.bodyCall freshPipe, TxEvent.unwatchCmd])
        | Except.ok _ =>
          (some (Except.error (TxError.Abort v)),
            [TxEvent.watchCmd, TxEvent.bodyCall freshPipe, TxEvent.unwatchCmd])
      | Except.error (TxError.Serialization s) =>
        match (env i).unwatchRes with
        | Except.error e =>
          (some (Except.error (TxError.DbError e)),
            [TxEvent.watchCmd, TxEvent.bodyCall freshPipe, TxEvent.unwatchCmd])
        | Except.ok _ =>
          (some (Except.error (TxError.Serialization s)),
            [TxEvent.watchCmd, TxEvent.bodyCall freshPipe, TxEvent.unwatchCmd])
      | Except.error (TxError.DbError e) =>
        (some (Except.error (TxError.DbError e)),
          [TxEvent.watchCmd, TxEvent.bodyCall freshPipe])
      | Except.ok p =>
        match (env i).submitRes with
        | Except.error e =>
          (some (Except.error (TxError.DbError e)),
            [TxEvent.watchCmd, TxEvent.bodyCall freshPipe, TxEvent.submitCmd p])
        | Except.ok (some resp) =>
          match (env i).unwatchRes with
          | Except.error e =>
            (some (Except.error (TxError.DbError e)),
              [TxEvent.watchCmd, TxEvent.bodyCall freshPipe, TxEvent.submitCmd p,
                TxEvent.unwatchCmd])
          | Except.ok _ =>
            (some (Except.ok resp),
              [TxEvent.watchCmd, TxEvent.bodyCall freshPipe, TxEvent.submitCmd p,
                TxEvent.unwatchCmd])
        | Except.ok none =>
          let next := runTx env body (i + 1) fuel
          (next.1,
            TxEvent.watchCmd :: TxEvent.bodyCall freshPipe :: TxEvent.submitCmd p :: next.2)

/-- Whether a trace event is an invocation of the body. -/
def TxEvent.isBodyCall : TxEvent → Bool
  | TxEvent.bodyCall _ => true
  | _ => false

/-- Number of body invocations recorded in a trace. -/
def bodyCalls (tr : List TxEvent) : Nat := tr.countP TxEvent.isBodyCall

/-- The conditions under which an attempt neither commits nor terminates:
watch succeeded, the body proceeded, and the atomic submission reported an
optimistic-lock violation. -/
def retryCond {α ρ : Type} (env : Nat → AttemptEnv ρ)
    (body : Nat → Pipeline → Except (TxError α) Pipeline) (i : Nat) : Prop :=
  (env i).watchRes = Except.ok () ∧ (∃ p, body i freshPipe = Except.ok p) ∧
    (env i).submitRes = Except.ok none

/-- A concrete invertible codec for Nat (unary strings) used to exercise the
helpers on explicit inputs. -/
def natCodec : Codec Nat where
  encode n := Except.ok (String.mk (List.replicate n 'x'))
  decode s := Except.ok s.length

/-- A codec whose encoder fails on one sentinel value, to exercise the
encode-failure paths. -/
def fussyCodec : Codec Nat where
  encode n :=
    if n == 13 then Except.error "unlucky" else Except.ok (String.mk (List.replicate n 'x'))
  decode s := Except.ok s.length

/-- C1: when the first attempt's watch succeeds, the body proceeds with a
pipeline, the atomic submission returns Some results and unwatch succeeds, the
engine returns Ok with exactly the submission's results after issuing
watch, body, submit, unwatch once — the body is invoked exactly once,
regardless of the remaining fuel. -/
theorem c1_first_attempt_commit {α ρ : Type} (env : Nat → AttemptEnv ρ)
    (body : Nat → Pipeline → Except (TxError α) Pipeline)
    (p : Pipeline) (res : ρ) (fuel : Nat)
    (hw : (env 0).watchRes = Except.ok ())
    (hb : body 0 freshPipe = Except.ok p)
    (hs : (env 0).submitRes = Except.ok (some res))
    (hu : (env 0).unwatchRes = Except.ok ()) :
    runTx env body 0 (fuel + 1)
      = (some (Except.ok res),
          [TxEvent.watchCmd, TxEvent.bodyCall freshPipe, TxEvent.submitCmd p,
            TxEvent.unwatchCmd])
    ∧ bodyCalls (runTx env body 0 (fuel + 1)).2 = 1 := by
  have h : runTx env body 0 (fuel + 1)
      = (some (Except.ok res),
          [TxEvent.watchCmd, TxEvent.bodyCall freshPipe, TxEvent.submitCmd p,
            TxEvent.unwatchCmd]) := by
    simp [runTx, hw, hb, hs, hu]
  refine ⟨h, ?_⟩
  rw [h]
  simp [bodyCalls, List.countP_cons, List.countP_nil, TxEvent.isBodyCall]

/-- C1 witness: a concrete one-shot run that commits on the first attempt. -/
theorem c1_witness :
    runTx (α := Unit) (fun _ => AttemptEnv.mk (Except.ok ()) (Except.ok (some 7)) (Except.ok ()))
        (fun _ q => Except.ok q) 0 1
      = (some (Except.ok 7),
          [TxEvent.watchCmd, TxEvent.bodyCall freshPipe, TxEvent.submitCmd freshPipe,
            TxEvent.unwatchCmd])
    ∧ bodyCalls (runTx (α := Unit)
        (fun _ => AttemptEnv.mk (Except.ok ()) (Except.ok (some 7)) (Except.ok ()))
        (fun _ q => Except.ok q) 0 1).2 = 1 :=
  c1_first_attempt_commit _ _ freshPipe 7 0 rfl rfl rfl rfl

/-- C3: when the body returns Abort with a payload and unwatch succeeds, the
attempt issues unwatch after the body and the engine terminates with Abort
carrying exactly that payload, in a single attempt (one body invocation, so
never retried), and the outcome is never the Ok of a committed transaction. -/
theorem c3_abort_terminal {α ρ : Type} (env : Nat → AttemptEnv ρ)
    (body : Nat → Pipeline → Except (TxError α) Pipeline)
    (v : α) (i fuel : Nat)
    (hw : (env i).watchRes = Except.ok ())
    (hb : body i freshPipe = Except.error (TxError.Abort v))
    (hu : (env i).unwatchRes = Except.ok ()) :
    runTx env body i (fuel + 1)
      = (some (Except.error (TxError.Abort v)),
          [TxEvent.watchCmd, TxEvent.bodyCall freshPipe, TxEvent.unwatchCmd])
    ∧ bodyCalls (runTx env body i (fuel + 1)).2 = 1
    ∧ ∀ r : ρ, (runTx env body i (fuel + 1)).1 ≠ some (Except.ok r) := by
  have h : runTx env body i (fuel + 1)
      = (some (Except.error (TxError.Abort v)),
          [TxEvent.watchCmd, TxEvent.bodyCall freshPipe, TxEvent.unwatchCmd]) := by
    simp [runTx, hw, hb, hu]
  refine ⟨h, ?_, ?_⟩
  · rw [h]
    simp [bodyCalls, List.countP_cons, List.countP_nil, TxEvent.isBodyCall]
  · intro r
    rw [h]
    simp

/-- C3 witness: a concrete aborting run returning the exact payload. -/
theorem c3_witness :
    runTx (ρ := Nat) (fun _ => AttemptEnv.mk (Except.ok ()) (Except.ok none) (Except.ok ()))
        (fun _ _ => Except.error (TxError.Abort "invalid-state")) 0 3
      = (some (Except.error (TxError.Abort "invalid-state")),
          [TxEvent.watchCmd, TxEvent.bodyCall freshPipe, TxEvent.unwatchCmd]) :=
  (c3_abort_terminal _ _ "invalid-state" 0 2 rfl rfl rfl).1

/-- C10: on each of the three unwatch-issuing exit paths — body Abort, body
Serialization, and a successful atomic commit — a failing unwatch makes the
engine return DbError with the unwatch failure instead of that path's own
outcome: the abort payload is dropped, and even a transaction whose batch the
store committed (submission returned Some) surfaces as a store error. -/
theorem c10_unwatch_failure {α ρ : Type} (env : Nat → AttemptEnv ρ)
    (body : Nat → Pipeline → Except (TxError α) Pipeline) (i fuel : Nat) :
    (∀ v e, (env i).watchRes = Except.ok () →
      body i freshPipe = Except.error (TxError.Abort v) →
      (env i).unwatchRes = Except.error e →
      (runTx env body i (fuel + 1)).1 = some (Except.error (TxError.DbError e)))
    ∧ (∀ s e, (env i).watchRes = Except.ok () →
      body i freshPipe = Except.error (TxError.Serialization s) →
      (env i).unwatchRes = Except.error e →
      (runTx env body i (fuel + 1)).1 = some (Except.error (TxError.DbError e)))
    ∧ (∀ p resp e, (env i).watchRes = Except.ok () →
      body i freshPipe = Except.ok p →
      (env i).submitRes = Except.ok (some resp) →
      (env i).unwatchRes = Except.error e →
      (runTx env body i (fuel + 1)).1 = some (Except.error (TxError.DbError e))) := by
  refine ⟨?_, ?_, ?_⟩
  · intro v e hw hb hu
    simp [runTx, hw, hb, hu]
  · intro s e hw hb hu
    simp [runTx, hw, hb, hu]
  · intro p resp e hw hb hs hu
    simp [runTx, hw, hb, hs, hu]

/-- C10 witness: concrete runs where a failing unwatch overrides an abort
payload and a committed submission. -/
theorem c10_witness :
    (runTx (fun _ => AttemptEnv.mk (Except.ok ()) (Except.ok (some 5)) (Except.error "lost"))
        (fun _ _ => Except.error (TxError.Abort "payload")) 0 1).1
      = some (Except.error (TxError.DbError "lost"))
    ∧ (runTx (α := String) (fun _ => AttemptEnv.mk (Except.ok ()) (Except.ok (some 5))
          (Except.error "lost"))
        (fun _ _ => Except.error (TxError.Serialization "bad json")) 0 1).1
      = some (Except.error (TxError.DbError "lost"))
    ∧ (runTx (α := String) (fun _ => AttemptEnv.mk (Except.ok ()) (Except.ok (some 5))
          (Except.error "lost"))
        (fun _ q => Except.ok q) 0 1).1
      = some (Except.error (TxError.DbError "lost")) :=
  ⟨(c10_unwatch_failure _ _ 0 0).1 "payload" "lost" rfl rfl rfl,
   (c10_unwatch_failure _ _ 0 0).2.1 "bad json" "lost" rfl rfl rfl,
   (c10_unwatch_failure _ _ 0 0).2.2 freshPipe 5 "lost" rfl rfl rfl rfl⟩

/-- C2: when the body proceeds and the atomic submission reports a lock
violation (ok none), the attempt's events are exactly watch, body, submit —
no unwatch — and the run continues with the next iteration, surfacing no
error of its own; every other non-commit condition terminates the
transaction: a watch failure, a body store error, and a submission error all
break with that DbError, and a body serialization error breaks with a
terminal result as well. -/
theorem c2_lock_violation_retry {α ρ : Type} (env : Nat → AttemptEnv ρ)
    (body : Nat → Pipeline → Except (TxError α) Pipeline) (i fuel : Nat) :
    (∀ p, (env i).watchRes = Except.ok () → body i freshPipe = Except.ok p →
      (env i).submitRes = Except.ok none →
      runTx env body i (fuel + 1)
        = ((runTx env body (i + 1) fuel).1,
            TxEvent.watchCmd :: TxEvent.bodyCall freshPipe :: TxEvent.submitCmd p ::
              (runTx env body (i + 1) fuel).2)
      ∧ TxEvent.unwatchCmd ∉
          [TxEvent.watchCmd, TxEvent.bodyCall freshPipe, TxEvent.submitCmd p])
    ∧ (∀ e, (env i).watchRes = Except.error e →
      (runTx env body i (fuel + 1)).1 = some (Except.error (TxError.DbError e)))
    ∧ (∀ e, (env i).watchRes = Except.ok () →
      body i freshPipe = Except.error (TxError.DbError e) →
      (runTx env body i (fuel + 1)).1 = some (Except.error (TxError.DbError e)))
    ∧ (∀ p e, (env i).watchRes = Except.ok () → body i freshPipe = Except.ok p →
      (env i).submitRes = Except.error e →
      (runTx env body i (fuel + 1)).1 = some (Except.error (TxError.DbError e)))
    ∧ (∀ s, (env i).watchRes = Except.ok () →
      body i freshPipe = Except.error (TxError.Serialization s) →
      ∃ r, (runTx env body i (fuel + 1)).1 = some (Except.error r)) := by
  refine ⟨?_, ?_, ?_, ?_, ?_⟩
  · intro p hw hb hs
    refine ⟨?_, by simp⟩
    simp [runTx, hw, hb, hs]
  · intro e hw
    simp [runTx, hw]
  · intro e hw hb
    simp [runTx, hw, hb]
  · intro p e hw hb hs
    simp [runTx, hw, hb, hs]
  · intro s hw hb
    cases hu : (env i).unwatchRes with
    | error e => exact ⟨TxError.DbError e, by simp [runTx, hw, hb, hu]⟩
    | ok u => exact ⟨TxError.Serialization s, by simp [runTx, hw, hb, hu]⟩

/-- C2 witness: concrete runs exercising the retry branch and each of the
terminating error branches. -/
theorem c2_witness :
    (runTx (α := Unit) (fun _ => AttemptEnv.mk (Except.ok ()) (Except.ok (none : Option Nat))
          (Except.ok ())) (fun _ q => Except.ok q) 0 1
        = ((runTx (α := Unit) (fun _ => AttemptEnv.mk (Except.ok ())
              (Except.ok (none : Option Nat)) (Except.ok ())) (fun _ q => Except.ok q) 1 0).1,
            TxEvent.watchCmd :: TxEvent.bodyCall freshPipe :: TxEvent.submitCmd freshPipe ::
              (runTx (α := Unit) (fun _ => AttemptEnv.mk (Except.ok ())
                (Except.ok (none : Option Nat)) (Except.ok ())) (fun _ q => Except.ok q) 1 0).2)
      ∧ TxEvent.unwatchCmd ∉
          [TxEvent.watchCmd, TxEvent.bodyCall freshPipe, TxEvent.submitCmd freshPipe])
    ∧ (runTx (α := Unit) (fun _ => AttemptEnv.mk (Except.error "watch down")
          (Except.ok (none : Option Nat)) (Except.ok ())) (fun _ q => Except.ok q) 0 1).1
        = some (Except.error (TxError.DbError "watch down"))
    ∧ (runTx (fun _ => AttemptEnv.mk (Except.ok ()) (Except.ok (none : Option Nat))
          (Except.ok ()))
        (fun _ _ => Except.error (TxError.DbError (α := Unit) "read down")) 0 1).1
        = some (Except.error (TxError.DbError "read down"))
    ∧ (runTx (α := Unit) (ρ := Nat) (fun _ => AttemptEnv.mk (Except.ok ())
          (Except.error "exec down") (Except.ok ()))
        (fun _ q => Except.ok q) 0 1).1
        = some (Except.error (TxError.DbError "exec down"))
    ∧ ∃ r, (runTx (ρ := Nat) (fun _ => AttemptEnv.mk (Except.ok ()) (Except.ok none)
          (Except.ok ()))
        (fun _ _ => Except.error (TxError.Serialization (α := Unit) "bad json")) 0 1).1
        = some (Except.error r) :=
  ⟨(c2_lock_violation_retry _ _ 0 0).1 freshPipe rfl rfl rfl,
   (c2_lock_violation_retry _ _ 0 0).2.1 "watch down" rfl,
   (c2_lock_violation_retry _ _ 0 0).2.2.1 "read down" rfl rfl,
   (c2_lock_violation_retry _ _ 0 0).2.2.2.1 freshPipe "exec down" rfl rfl rfl,
   (c2_lock_violation_retry _ _ 0 0).2.2.2.2 "bad json" rfl rfl⟩

/-- C9: the loop has no retry cap: whenever every attempt's watch succeeds,
the body proceeds, and every submission reports a lock violation, the run is
still looping after any amount of fuel — it never returns. -/
theorem c9_no_retry_cap {α ρ : Type} (env : Nat → AttemptEnv ρ)
    (body : Nat → Pipeline → Except (TxError α) Pipeline)
    (h : ∀ i, retryCond env body i) :
    ∀ fuel i, (runTx env body i fuel).1 = none := by
  intro fuel
  induction fuel with
  | zero => intro i; simp [runTx]
  | succ n ih =>
    intro i
    obtain ⟨hw, ⟨p, hb⟩, hs⟩ := h i
    simp [runTx, hw, hb, hs, ih (i + 1)]

/-- C9 witness: a concrete permanently-contended run that is still looping
after five iterations. -/
theorem c9_witness :
    (runTx (α := Unit) (fun _ => AttemptEnv.mk (Except.ok ()) (Except.ok (none : Option Nat))
        (Except.ok ())) (fun _ q => Except.ok q) 0 5).1 = none :=
  c9_no_retry_cap _ _ (fun _ => ⟨rfl, ⟨freshPipe, rfl⟩, rfl⟩) 5 0

/-- C5: every body invocation recorded in any run of the engine — first
attempt or any retry — receives the fresh atomic pipeline, whose command list
is empty: no batch is ever carried over between attempts. -/
theorem c5_fresh_batch {α ρ : Type} (env : Nat → AttemptEnv ρ)
    (body : Nat → Pipeline → Except (TxError α) Pipeline) (fuel i : Nat) (p : Pipeline)
    (hmem : TxEvent.bodyCall p ∈ (runTx env body i fuel).2) :
    p = freshPipe ∧ freshPipe.commands = [] := by
  refine ⟨?_, rfl⟩
  induction fuel generalizing i with
  | zero => simp [runTx] at hmem
  | succ n ih =>
    simp only [runTx] at hmem
    split at hmem
    · simp at hmem
    · split at hmem
      · split at hmem <;> (simp at hmem; exact hmem)
      · split at hmem <;> (simp at hmem; exact hmem)
      · simp at hmem
        exact hmem
      · split at hmem
        · simp at hmem
          exact hmem
        · split at hmem <;> (simp at hmem; exact hmem)
        · simp at hmem
          rcases hmem with h | h
          · exact h
          · exact ih (i + 1) h

/-- C5 witness: in a concrete two-attempt run (one lock violation, then a
commit), every recorded body invocation received the fresh pipeline. -/
theorem c5_witness :
    TxEvent.bodyCall freshPipe ∈
      (runTx (α := Unit) (fun j => AttemptEnv.mk (Except.ok ())
          (Except.ok (if j == 0 then none else some 1)) (Except.ok ()))
        (fun _ q => Except.ok q) 0 2).2
    ∧ (freshPipe = freshPipe ∧ freshPipe.commands = []) :=
  ⟨by simp [runTx, freshPipe, Pipeline.new, Pipeline.atomic],
   c5_fresh_batch (α := Unit) (fun j => AttemptEnv.mk (Except.ok ())
        (Except.ok (if j == 0 then none else some 1)) (Except.ok ()))
      (fun _ q => Except.ok q) 2 0 freshPipe
      (by simp [runTx, freshPipe, Pipeline.new, Pipeline.atomic])⟩

/-- C4 counterexample: reading an absent key with json_get does not produce a
distinct NotFound error: it produces a DbError (the nil reply fails the String
conversion), the very constructor that classifies connection failures, as the
second conjunct shows on a connection that is down. -/
theorem c4_counterexample :
    json_get natCodec (Conn.mk [] none) "missing"
      = Except.error (JsonGetError.DbError nilTypeErr)
    ∧ (JsonGetError.DbError nilTypeErr).isDbErr = true
    ∧ json_get natCodec (Conn.mk [("missing", "5")] (some "io refused")) "missing"
        = Except.error (JsonGetError.DbError "io refused")
    ∧ (JsonGetError.DbError "io refused").isDbErr = true :=
  ⟨rfl, rfl, rfl, rfl⟩

/-- C4 amended: json_get of an absent key fails, and the failure is
distinguishable from a decode failure (it is never Serialization), but it is
the DbError constructor — the same classification as connection failures —
and JsonGetError has no further variant, so no distinct NotFound exists. -/
theorem c4_amended {V : Type} (cd : Codec V) (st : Store) (k : String)
    (habs : List.lookup k st = none) :
    json_get cd (Conn.mk st none) k = Except.error (JsonGetError.DbError nilTypeErr)
    ∧ (∀ s, json_get cd (Conn.mk st none) k ≠ Except.error (JsonGetError.Serialization s))
    ∧ ∀ err : JsonGetError, err.isDbErr = true ∨ err.isSerdeErr = true := by
  have h : json_get cd (Conn.mk st none) k
      = Except.error (JsonGetError.DbError nilTypeErr) := by
    simp [json_get, Conn.rawGet, habs, fromNilString]
  refine ⟨h, ?_, ?_⟩
  · intro s
    rw [h]
    simp
  · intro err
    cases err <;> simp [JsonGetError.isDbErr, JsonGetError.isSerdeErr]

/-- C4 witness: the amended statement at a concrete absent key. -/
theorem c4_witness :
    json_get natCodec (Conn.mk [("other", "1")] none) "gone"
      = Except.error (JsonGetError.DbError nilTypeErr) :=
  (c4_amended natCodec [("other", "1")] "gone" rfl).1

/-- C7: Pipeline::json_set either fails with exactly the Serialization error
of the encoder and leaves the pipeline untouched, or, when encoding succeeds,
appends exactly one SET command for that key and encoded string. -/
theorem c7_json_set_all_or_nothing {α V : Type} (cd : Codec V) (p : Pipeline)
    (k : String) (v : V) :
    (∀ e, cd.encode v = Except.error e →
      Pipeline.json_set (α := α) cd p k v = (Except.error (TxError.Serialization e), p))
    ∧ ∀ s, cd.encode v = Except.ok s →
      Pipeline.json_set (α := α) cd p k v
        = (Except.ok (), Pipeline.mk (p.commands ++ [Cmd.set k s]) p.atomicFlag) := by
  constructor
  · intro e he
    simp [Pipeline.json_set, he]
  · intro s hs
    simp [Pipeline.json_set, hs, Pipeline.set]

/-- C7 witness: the failing encoder leaves the pipeline as it was; the
succeeding one appends a single SET. -/
theorem c7_witness :
    Pipeline.json_set (α := Unit) fussyCodec freshPipe "k" 13
      = (Except.error (TxError.Serialization "unlucky"), freshPipe)
    ∧ Pipeline.json_set (α := Unit) fussyCodec freshPipe "k" 5
      = (Except.ok (),
          Pipeline.mk (freshPipe.commands ++ [Cmd.set "k" "xxxxx"]) freshPipe.atomicFlag) :=
  ⟨(c7_json_set_all_or_nothing fussyCodec freshPipe "k" 13).1 "unlucky" rfl,
   (c7_json_set_all_or_nothing fussyCodec freshPipe "k" 5).2 "xxxxx" rfl⟩

/-- The last SET of a committed pipeline determines what a later lookup of
that key sees. -/
theorem lookup_applyTo_set (pp : Pipeline) (st : Store) (k raw : String) :
    List.lookup k ((pp.set k raw).applyTo st) = some raw := by
  simp [Pipeline.set, Pipeline.applyTo, List.foldl_append, applyCmd, List.lookup]

/-- C8: when encoding succeeds and decode inverts encode on the value,
json_set appends the SET for the encoded string and a json_get of the same
key against the store resulting from committing that pipeline — with no
intervening write — returns exactly the original value. -/
theorem c8_roundtrip {α V : Type} (cd : Codec V) (st : Store) (pp : Pipeline)
    (k : String) (v : V) (raw : String)
    (henc : cd.encode v = Except.ok raw) (hdec : cd.decode raw = Except.ok v) :
    Pipeline.json_set (α := α) cd pp k v = (Except.ok (), pp.set k raw)
    ∧ json_get cd (Conn.mk ((pp.set k raw).applyTo st) none) k = Except.ok v := by
  refine ⟨by simp [Pipeline.json_set, henc], ?_⟩
  simp [json_get, Conn.rawGet, lookup_applyTo_set, fromNilString, hdec]

/-- C8 witness: the counter scenario — 6 written over a stored 5 reads back
as 6. -/
theorem c8_witness :
    Pipeline.json_set (α := Unit) natCodec freshPipe "counter" 6
      = (Except.ok (), freshPipe.set "counter" "xxxxxx")
    ∧ json_get natCodec
        (Conn.mk ((freshPipe.set "counter" "xxxxxx").applyTo [("counter", "xxxxx")]) none)
        "counter"
      = Except.ok 6 :=
  c8_roundtrip natCodec [("counter", "xxxxx")] freshPipe "counter" 6 "xxxxxx" rfl rfl

/-- Converting an all-present MGET reply to strings succeeds positionally. -/
theorem fromNilStringList_map_some (l : List String) :
    fromNilStringList (l.map some) = Except.ok l := by
  induction l with
  | nil => rfl
  | cons s t ih => simp [fromNilStringList, ih, Except.map]

/-- A nil element anywhere in an MGET reply fails the whole conversion with
the type error. -/
theorem fromNilStringList_of_mem_none (l : List (Option String)) (h : none ∈ l) :
    fromNilStringList l = Except.error nilTypeErr := by
  induction l with
  | nil => simp at h
  | cons o t ih =>
    cases o with
    | none => rfl
    | some s =>
      simp at h
      simp [fromNilStringList, ih h, Except.map]

/-- The decode loop succeeds positionally when every raw string decodes. -/
theorem decodeEach_ok {V : Type} (cd : Codec V) (raws : List String) (vs : List V)
    (h : List.Forall₂ (fun r v => cd.decode r = Except.ok v) raws vs) :
    decodeEach cd raws = Except.ok vs := by
  induction h with
  | nil => rfl
  | cons hd _ ih => simp [decodeEach, hd, ih, Except.map]

/-- Positional lookups expressed as a map over the key list. -/
theorem map_lookup_of_forall2 (st : Store) (keys raws : List String)
    (h : List.Forall₂ (fun k r => List.lookup k st = some r) keys raws) :
    (keys.map fun k => List.lookup k st) = raws.map some := by
  induction h with
  | nil => rfl
  | cons hd _ ih => simp [hd, ih]

/-- C6: json_mget over a single key equals maybe_json_get collected into a
sequence (so an absent single key yields the empty sequence), the multi-key
path positionally decodes each raw value, and an absent key among two or more
requested keys fails the whole call with the nil-conversion DbError. -/
theorem c6_mget_consistency {V : Type} (cd : Codec V) :
    (∀ c k, json_mget cd c [k] = (maybe_json_get cd c k).map Option.toList)
    ∧ (∀ st k, List.lookup k st = none →
        json_mget cd (Conn.mk st none) [k] = Except.ok [])
    ∧ (∀ st keys raws vs, 2 ≤ keys.length →
        List.Forall₂ (fun k r => List.lookup k st = some r) keys raws →
        List.Forall₂ (fun r v => cd.decode r = Except.ok v) raws vs →
        json_mget cd (Conn.mk st none) keys = Except.ok vs)
    ∧ (∀ st keys k, 2 ≤ keys.length → k ∈ keys → List.lookup k st = none →
        json_mget cd (Conn.mk st none) keys
          = Except.error (JsonGetError.DbError nilTypeErr)) := by
  refine ⟨?_, ?_, ?_, ?_⟩
  · intro c k
    cases h : maybe_json_get cd c k with
    | error e => simp [json_mget, isSingleArg, h, Except.map]
    | ok o => simp [json_mget, isSingleArg, h, Except.map]
  · intro st k habs
    simp [json_mget, isSingleArg, maybe_json_get, Conn.rawGet, habs]
  · intro st keys raws vs hlen hkr hrv
    have hsingle : isSingleArg keys = false := by
      simp only [isSingleArg, beq_eq_false_iff_ne, ne_eq]
      omega
    cases keys with
    | nil => simp at hlen
    | cons k1 rest =>
      have h1 := map_lookup_of_forall2 st (k1 :: rest) raws hkr
      simp [json_mget, hsingle, Conn.rawMGet, h1, fromNilStringList_map_some,
        decodeEach_ok cd raws vs hrv]
  · intro st keys k hlen hk habs
    have hsingle : isSingleArg keys = false := by
      simp only [isSingleArg, beq_eq_false_iff_ne, ne_eq]
      omega
    cases keys with
    | nil => simp at hlen
    | cons k1 rest =>
      have hnone : none ∈ List.lookup k1 st :: List.map (fun k2 => List.lookup k2 st) rest := by
        have h0 : none ∈ List.map (fun k2 => List.lookup k2 st) (k1 :: rest) := by
          simp only [List.mem_map]
          exact ⟨k, hk, habs⟩
        simpa using h0
      simp [json_mget, hsingle, Conn.rawMGet, fromNilStringList_of_mem_none _ hnone]

/-- C6 witness: concrete runs of the single-key equivalence, the absent
single key, a two-key positional decode, and a two-key call with one absent
key. -/
theorem c6_witness :
    json_mget natCodec (Conn.mk [("a", "x")] none) ["a"]
      = (maybe_json_get natCodec (Conn.mk [("a", "x")] none) "a").map Option.toList
    ∧ json_mget natCodec (Conn.mk [("b", "x")] none) ["a"] = Except.ok []
    ∧ json_mget natCodec (Conn.mk [("a", "x"), ("b", "xx")] none) ["a", "b"]
      = Except.ok [1, 2]
    ∧ json_mget natCodec (Conn.mk [("a", "x")] none) ["a", "b"]
      = Except.error (JsonGetError.DbError nilTypeErr) :=
  ⟨(c6_mget_consistency natCodec).1 (Conn.mk [("a", "x")] none) "a",
   (c6_mget_consistency natCodec).2.1 [("b", "x")] "a" rfl,
   (c6_mget_consistency natCodec).2.2.1 [("a", "x"), ("b", "xx")] ["a", "b"] ["x", "xx"]
     [1, 2] (by decide)
     (List.Forall₂.cons rfl (List.Forall₂.cons rfl List.Forall₂.nil))
     (List.Forall₂.cons rfl (List.Forall₂.cons rfl List.Forall₂.nil)),
   (c6_mget_consistency natCodec).2.2.2 [("a", "x")] ["a", "b"] "b" (by decide)
     (by simp) rfl⟩

end RedisUtils
